import Mathlib

/-!
Verification of the CASp backend's exam composition, psychometric scoring,
bank-generation and difficulty-tagging logic.

The Python sources are shallowly embedded:
* Python floats are modelled as exact rationals (`ℚ`); the scoring formulas
  are arithmetic on small decimal constants, so the rational model is the
  intended real-number semantics of the code.
* Python `datetime` values are modelled as `Nat` timestamps (only their
  total order is used).
* Python dicts keyed by strings are modelled as insertion-ordered
  association lists, with `dict`-comprehension overwrite semantics made
  explicit where it matters.
* `getattr(obj, "attr", None)` probes of optional columns are modelled as
  explicit `Option` fields, following the repository's own design note
  that optional get-or-default probing stands for optional schema fields.
-/

/-! ## Data model (psychometrics.py) -/

inductive ExamType where
  | open_book
  | closed_book
  | mixed
deriving DecidableEq

inductive ExamMode where
  | official_like
  | test_prep
deriving DecidableEq

/-- `DomainResult` from psychometrics.py: per-domain tallies of one attempt. -/
structure DomainResult where
  domain_code : String
  questions_in_domain : Int
  correct_in_domain : Int
deriving DecidableEq

/-- `ExamAttempt` from psychometrics.py. `taken_at` is a `datetime`,
modelled by a natural-number timestamp. -/
structure ExamAttempt where
  exam_id : Int
  exam_type : ExamType
  mode : ExamMode
  taken_at : Nat
  total_questions : Int
  total_correct : Int
  domains : List DomainResult
deriving DecidableEq

/-- `CLOSED_BOOK_WEIGHTS` from psychometrics.py. -/
def CLOSED_BOOK_WEIGHTS : List (String × ℚ) :=
  [("CBC_ADAAG", 30/100),
   ("HOUSING", 20/100),
   ("FEDERAL_REGS", 20/100),
   ("CASP_RESPONSIBILITY", 15/100),
   ("APPLICABLE_STANDARDS", 15/100)]

/-- `OPEN_BOOK_WEIGHTS` from psychometrics.py. -/
def OPEN_BOOK_WEIGHTS : List (String × ℚ) :=
  [("F_SITE_ELEMENTS_EV", 25/100),
   ("G_ROUTES", 20/100),
   ("H_PLUMBING", 20/100),
   ("I_COMMUNICATION", 15/100),
   ("J_BUILT_IN", 20/100)]

/-- `compute_raw_percent` from psychometrics.py. -/
def compute_raw_percent (total_correct total_questions : Int) : Option ℚ :=
  if total_questions ≤ 0 then none
  else some ((total_correct : ℚ) / (total_questions : ℚ) * 100)

/-- `_get_weights_for_exam_type` from psychometrics.py: no table for `mixed`. -/
def get_weights_for_exam_type (exam_type : ExamType) : Option (List (String × ℚ)) :=
  match exam_type with
  | ExamType.closed_book => some CLOSED_BOOK_WEIGHTS
  | ExamType.open_book => some OPEN_BOOK_WEIGHTS
  | ExamType.mixed => none

/-- Per-domain percentage, `(d.correct_in_domain / d.questions_in_domain) * 100`. -/
def domainPercent (d : DomainResult) : ℚ :=
  (d.correct_in_domain : ℚ) / (d.questions_in_domain : ℚ) * 100

/-- Final value held by the Python `domain_scores` dict at key `code`:
the loop skips domains with no questions and later entries overwrite
earlier ones, so the dict holds the value of the last qualifying entry. -/
def lookupDomainScore (domains : List DomainResult) (code : String) : Option ℚ :=
  (domains.reverse.find?
     (fun d => decide (d.domain_code = code) && decide (0 < d.questions_in_domain))).map
    domainPercent

/-- Whether the Python `domain_scores` dict is non-empty. -/
def hasDomainScores (domains : List DomainResult) : Bool :=
  domains.any (fun d => decide (0 < d.questions_in_domain))

/-- The weighted-composite accumulation loop of
`compute_psychometric_score_for_exam`: returns
`(domain_composite, total_weight)` before the final division. -/
def compositeSums (weights : List (String × ℚ)) (domains : List DomainResult) : ℚ × ℚ :=
  weights.foldl
    (fun acc cw =>
      match lookupDomainScore domains cw.1 with
      | some s => (acc.1 + cw.2 * s, acc.2 + cw.2)
      | none => acc)
    (0, 0)

/-- `max(0.0, min(100.0, x))`. -/
def clamp01 (x : ℚ) : ℚ := max 0 (min 100 x)

/-- `compute_psychometric_score_for_exam` from psychometrics.py. -/
def compute_psychometric_score_for_exam (exam : ExamAttempt) (alpha : ℚ := 2/5) :
    Option ℚ :=
  if exam.mode ≠ ExamMode.test_prep then none
  else if exam.total_questions ≤ 0 then none
  else
    match compute_raw_percent exam.total_correct exam.total_questions with
    | none => none
    | some raw_percent =>
      match get_weights_for_exam_type exam.exam_type with
      | none => none
      | some weights =>
        if hasDomainScores exam.domains = false then some (clamp01 raw_percent)
        else
          let sums := compositeSums weights exam.domains
          let domain_composite := if 0 < sums.2 then sums.1 / sums.2 else raw_percent
          some (clamp01 (alpha * raw_percent + (1 - alpha) * domain_composite))

/-- Stable insertion of one attempt into a list sorted ascending by
`taken_at` (an element is inserted before the first strictly-later or
equally-late element that came later in the original list). -/
def insertByTakenAt (a : ExamAttempt) : List ExamAttempt → List ExamAttempt
  | [] => [a]
  | b :: rest =>
    if a.taken_at ≤ b.taken_at then a :: b :: rest else b :: insertByTakenAt a rest

/-- Stable ascending sort by `taken_at`, modelling Python's stable
`list.sort(key=lambda a: a.taken_at)`. -/
def sortByTakenAt : List ExamAttempt → List ExamAttempt
  | [] => []
  | a :: rest => insertByTakenAt a (sortByTakenAt rest)

/-- Python `l[-n:]` for `n ≥ 1`: the last `n` elements. -/
def takeLast {α : Type} (n : Nat) (l : List α) : List α :=
  l.drop (l.length - n)

/-- `base_weights` from `compute_psychometric_proficiency_for_type`. -/
def base_weights : List ℚ := [2/10, 3/10, 5/10]

/-- Renormalization of the kept recency weights:
`[w / total for w in ws] if total > 0 else [1/count] * count`. -/
def normalizeWeights (ws : List ℚ) (count : Nat) : List ℚ :=
  let total := ws.foldl (· + ·) 0
  if 0 < total then ws.map (· / total) else List.replicate count (1 / (count : ℚ))

/-- `compute_psychometric_proficiency_for_type` from psychometrics.py. -/
def compute_psychometric_proficiency_for_type
    (attempts : List ExamAttempt) (exam_type : ExamType) (alpha : ℚ := 2/5) :
    Option ℚ :=
  let filtered := attempts.filter
    (fun a => decide (a.exam_type = exam_type) && decide (a.mode = ExamMode.test_prep))
  if filtered.isEmpty then none
  else
    let recent := takeLast 3 (sortByTakenAt filtered)
    let weights := normalizeWeights (takeLast recent.length base_weights) recent.length
    let scores := recent.filterMap
      (fun exam => compute_psychometric_score_for_exam exam alpha)
    if scores.isEmpty then none
    else
      let effective_weights :=
        if scores.length < weights.length then takeLast scores.length weights else weights
      some (clamp01 ((List.zipWith (fun w s => w * s) effective_weights scores).foldl (· + ·) 0))

/-! ## Closed-book mastery endpoint (test_prep_results.py) -/

/-- `ClosedBookAnswer` from test_prep_results.py. -/
structure ClosedBookAnswer where
  question_id : Int
  choice : String
deriving DecidableEq

/-- A row of the `questions` table (models.py). The table has no `domain`
column; `_compute_closed_book_mastery` probes it with
`getattr(q, "domain", None)`, modelled as an optional field. -/
structure DBQuestion where
  id : Int
  text : String
  correct_answer : String
  qtype : Option String
  difficulty : Option String
  domain : Option String
  reference_document : Option String
  reference_section : Option String
deriving DecidableEq

/-- `_simple_percent` from test_prep_results.py. -/
def simple_percent (total correct : Int) : ℚ :=
  if total ≤ 0 then 0 else (correct : ℚ) / (total : ℚ) * 100

/-- `DOMAIN_WEIGHTS` from test_prep_results.py. -/
def DOMAIN_WEIGHTS : List (String × ℚ) :=
  [("cbc_scoping", 40/100),
   ("housing", 20/100),
   ("federal_regs", 1333/10000),
   ("casp_statutes", 1333/10000),
   ("identifying_standards", 1333/10000)]

/-- Python `DOMAIN_WEIGHTS.get(k, 0.0)` (keys are unique, first match). -/
def dictGet (m : List (String × ℚ)) (k : String) : ℚ :=
  match m.find? (fun kv => decide (kv.1 = k)) with
  | some kv => kv.2
  | none => 0

/-- The `by_id` dict of `_compute_closed_book_mastery`: the query filters
the table to the answered ids preserving table order, and the dict
comprehension keeps the last row per id. -/
def byIdLookup (db : List DBQuestion) (i : Int) : Option DBQuestion :=
  db.reverse.find? (fun q => decide (q.id = i))

/-- Bump an insertion-ordered counter dict at key `k`. -/
def bumpCount (k : String) : List (String × Int) → List (String × Int)
  | [] => [(k, 1)]
  | kv :: rest => if kv.1 = k then (kv.1, kv.2 + 1) :: rest else kv :: bumpCount k rest

/-- Python `domain_correct.get(domain, 0)`. -/
def getCount (m : List (String × Int)) (k : String) : Int :=
  match m.find? (fun kv => decide (kv.1 = k)) with
  | some kv => kv.2
  | none => 0

/-- The tally loop of `_compute_closed_book_mastery`: builds
`(domain_total, domain_correct)`, skipping unanswered ids and rows whose
`domain` probe is `None` or empty. -/
def tallyDomains (db : List DBQuestion) (answers : List ClosedBookAnswer) :
    List (String × Int) × List (String × Int) :=
  answers.foldl
    (fun acc a =>
      match byIdLookup db a.question_id with
      | none => acc
      | some q =>
        match q.domain with
        | none => acc
        | some dom =>
          if dom = "" then acc
          else
            (bumpCount dom acc.1,
             if a.choice = q.correct_answer then bumpCount dom acc.2 else acc.2))
    ([], [])

/-- `_compute_closed_book_mastery` from test_prep_results.py. -/
def compute_closed_book_mastery (db : List DBQuestion) (answers : List ClosedBookAnswer) : ℚ :=
  if answers.isEmpty then 0
  else
    let t := tallyDomains db answers
    if t.1.isEmpty then 0
    else
      let sums := t.1.foldl
        (fun acc kv =>
          let w := dictGet DOMAIN_WEIGHTS kv.1
          if w ≤ 0 then acc
          else (acc.1 + simple_percent kv.2 (getCount t.2 kv.1) * w, acc.2 + w))
        ((0 : ℚ), (0 : ℚ))
      if sums.2 ≤ 0 then 0 else sums.1 / sums.2

/-! ## Helper lemmas about the scoring pipeline -/

lemma lookupDomainScore_eq_none_of_no_scores {ds : List DomainResult}
    (h : hasDomainScores ds = false) (code : String) :
    lookupDomainScore ds code = none := by
  have hfind : ds.reverse.find?
      (fun d => decide (d.domain_code = code) && decide (0 < d.questions_in_domain)) = none := by
    apply List.find?_eq_none.2
    intro d hd
    rw [List.mem_reverse] at hd
    have hq : ¬ (0 < d.questions_in_domain) := by
      intro hlt
      have : ds.any (fun d => decide (0 < d.questions_in_domain)) = true :=
        List.any_eq_true.2 ⟨d, hd, by simpa using hlt⟩
      rw [hasDomainScores] at h
      rw [h] at this
      exact Bool.false_ne_true this
    simp [hq]
  rw [lookupDomainScore, hfind]
  rfl

lemma compositeSums_eq_zero_of_no_scores {ds : List DomainResult}
    (h : hasDomainScores ds = false) (w : List (String × ℚ)) :
    compositeSums w ds = (0, 0) := by
  rw [compositeSums]
  induction w with
  | nil => rfl
  | cons kv rest ih =>
    rw [List.foldl_cons, lookupDomainScore_eq_none_of_no_scores h kv.1]
    exact ih

lemma length_filterMap_of_ne_none {α β : Type} (f : α → Option β) :
    ∀ l : List α, (∀ a ∈ l, f a ≠ none) → (l.filterMap f).length = l.length := by
  intro l
  induction l with
  | nil => intro _; rfl
  | cons a rest ih =>
    intro h
    have ha := h a (List.mem_cons_self a rest)
    obtain ⟨b, hb⟩ := Option.ne_none_iff_exists'.1 ha
    rw [List.filterMap_cons, hb, List.length_cons]
    rw [ih (fun x hx => h x (List.mem_cons_of_mem a hx))]
    rfl

lemma mem_of_mem_insertByTakenAt {x a : ExamAttempt} :
    ∀ {l : List ExamAttempt}, x ∈ insertByTakenAt a l → x = a ∨ x ∈ l := by
  intro l
  induction l with
  | nil =>
    intro h
    rw [insertByTakenAt] at h
    simp at h
    exact Or.inl h
  | cons b rest ih =>
    intro h
    rw [insertByTakenAt] at h
    by_cases hle : a.taken_at ≤ b.taken_at
    · rw [if_pos hle] at h
      rcases List.mem_cons.1 h with h1 | h2
      · exact Or.inl h1
      · exact Or.inr h2
    · rw [if_neg hle] at h
      rcases List.mem_cons.1 h with h1 | h2
      · exact Or.inr (List.mem_cons.2 (Or.inl h1))
      · rcases ih h2 with h3 | h4
        · exact Or.inl h3
        · exact Or.inr (List.mem_cons.2 (Or.inr h4))

lemma mem_of_mem_sortByTakenAt {x : ExamAttempt} :
    ∀ {l : List ExamAttempt}, x ∈ sortByTakenAt l → x ∈ l := by
  intro l
  induction l with
  | nil => intro h; exact absurd h (List.not_mem_nil x)
  | cons a rest ih =>
    intro h
    rw [sortByTakenAt] at h
    rcases mem_of_mem_insertByTakenAt h with h1 | h2
    · exact List.mem_cons.2 (Or.inl h1)
    · exact List.mem_cons.2 (Or.inr (ih h2))

lemma mem_of_mem_takeLast {α : Type} {x : α} {n : Nat} {l : List α}
    (h : x ∈ takeLast n l) : x ∈ l :=
  List.drop_subset _ _ h

lemma length_insertByTakenAt (a : ExamAttempt) :
    ∀ l : List ExamAttempt, (insertByTakenAt a l).length = l.length + 1 := by
  intro l
  induction l with
  | nil => rfl
  | cons b rest ih =>
    rw [insertByTakenAt]
    by_cases hle : a.taken_at ≤ b.taken_at
    · rw [if_pos hle, List.length_cons, List.length_cons]
    · rw [if_neg hle, List.length_cons, ih, List.length_cons]

lemma length_sortByTakenAt :
    ∀ l : List ExamAttempt, (sortByTakenAt l).length = l.length := by
  intro l
  induction l with
  | nil => rfl
  | cons a rest ih =>
    rw [sortByTakenAt, length_insertByTakenAt, ih, List.length_cons]

lemma length_takeLast {α : Type} (n : Nat) (l : List α) :
    (takeLast n l).length = min n l.length := by
  rw [takeLast, List.length_drop]
  omega

/-- For any attempt of exam type `mixed`, the single-attempt scorer
returns `none` (there is no weight table for `mixed`). -/
lemma score_none_of_mixed (exam : ExamAttempt) (alpha : ℚ)
    (h : exam.exam_type = ExamType.mixed) :
    compute_psychometric_score_for_exam exam alpha = none := by
  by_cases hm : exam.mode ≠ ExamMode.test_prep
  · simp [compute_psychometric_score_for_exam, hm]
  · by_cases ht : exam.total_questions ≤ 0
    · simp [compute_psychometric_score_for_exam, hm, ht]
    · simp [compute_psychometric_score_for_exam, hm, ht, compute_raw_percent, h,
        get_weights_for_exam_type]

/-- Branch equality for the single-attempt scorer on the fully-weighted path:
test-prep mode, positive totals, a weight table, a non-empty domain-score
dict and positive matched weight. -/
lemma score_eq_of_pos {exam : ExamAttempt} {alpha : ℚ} {w : List (String × ℚ)}
    (hm : exam.mode = ExamMode.test_prep)
    (ht : ¬ exam.total_questions ≤ 0)
    (hw : get_weights_for_exam_type exam.exam_type = some w)
    (hhas : hasDomainScores exam.domains = true)
    (hden : 0 < (compositeSums w exam.domains).2) :
    compute_psychometric_score_for_exam exam alpha =
      some (clamp01 (alpha * ((exam.total_correct : ℚ) / (exam.total_questions : ℚ) * 100)
        + (1 - alpha) * ((compositeSums w exam.domains).1 / (compositeSums w exam.domains).2))) := by
  rw [compute_psychometric_score_for_exam]
  rw [if_neg (by simp [hm])]
  rw [if_neg ht]
  rw [compute_raw_percent, if_neg ht, hw]
  simp only [hhas, Bool.true_eq_false, if_false, if_pos hden]

/-- The spec's closed-book mastery scenario: ten questions in domain
`cbc_scoping` (all answered correctly) and five in `housing` (all wrong). -/
def masteryDb : List DBQuestion :=
  [⟨1, "q1", "A", none, none, some "cbc_scoping", none, none⟩,
   ⟨2, "q2", "A", none, none, some "housing", none, none⟩]

def masteryAnswers : List ClosedBookAnswer :=
  List.replicate 10 ⟨1, "A"⟩ ++ List.replicate 5 ⟨2, "B"⟩

/-- C1: for every test-prep attempt with positive totals whose exam type has
a weight table and whose domains give a positive matched weight, the
single-attempt score is `clamp (0.4·rawPercent + 0.6·composite)` where the
composite is the weight-renormalized sum over domains present in both the
attempt and the weight table; and in the closed-book mastery scenario
(`cbc_scoping` 10/10, `housing` 0/5) the composite equals 200/3 ≈ 66.67. -/
theorem C1_single_attempt_score :
    (∀ (exam : ExamAttempt) (w : List (String × ℚ)),
        exam.mode = ExamMode.test_prep →
        0 < exam.total_questions →
        get_weights_for_exam_type exam.exam_type = some w →
        0 < (compositeSums w exam.domains).2 →
        compute_psychometric_score_for_exam exam =
          some (clamp01 ((2/5) * ((exam.total_correct : ℚ) / (exam.total_questions : ℚ) * 100)
            + (3/5) * ((compositeSums w exam.domains).1 / (compositeSums w exam.domains).2)))) ∧
    compute_closed_book_mastery masteryDb masteryAnswers = 200/3 := by
  constructor
  · intro exam w hm ht hw hden
    have ht' : ¬ exam.total_questions ≤ 0 := not_le.2 ht
    have hhas : hasDomainScores exam.domains = true := by
      rcases Bool.eq_false_or_eq_true (hasDomainScores exam.domains) with htrue | hfalse
      · exact htrue
      · rw [compositeSums_eq_zero_of_no_scores hfalse] at hden
        norm_num at hden
    rw [score_eq_of_pos hm ht' hw hhas hden]
    norm_num
  · have ht : tallyDomains masteryDb masteryAnswers =
        ([("cbc_scoping", 10), ("housing", 5)], [("cbc_scoping", 10)]) := by decide
    have h1 : dictGet DOMAIN_WEIGHTS "cbc_scoping" = 40/100 := rfl
    have h2 : dictGet DOMAIN_WEIGHTS "housing" = 20/100 := rfl
    have h3 : getCount [("cbc_scoping", (10 : Int))] "cbc_scoping" = 10 := rfl
    have h4 : getCount [("cbc_scoping", (10 : Int))] "housing" = 0 := rfl
    rw [compute_closed_book_mastery]
    rw [if_neg (by decide : ¬ masteryAnswers.isEmpty = true)]
    rw [ht]
    simp only [List.foldl, h1, h2, h3, h4, simple_percent, List.isEmpty]
    norm_num

/-- A concrete fully-weighted closed-book test-prep attempt. -/
def examC1 : ExamAttempt :=
  ⟨1, ExamType.closed_book, ExamMode.test_prep, 1, 15, 10,
   [⟨"CBC_ADAAG", 10, 10⟩, ⟨"HOUSING", 5, 0⟩]⟩

theorem C1_witness :
    compute_psychometric_score_for_exam examC1 =
      some (clamp01 ((2/5) * ((examC1.total_correct : ℚ) / (examC1.total_questions : ℚ) * 100)
        + (3/5) * ((compositeSums CLOSED_BOOK_WEIGHTS examC1.domains).1
            / (compositeSums CLOSED_BOOK_WEIGHTS examC1.domains).2))) :=
  C1_single_attempt_score.1 examC1 CLOSED_BOOK_WEIGHTS rfl (by decide) rfl
    (by
      have e1 : lookupDomainScore examC1.domains "CBC_ADAAG" =
          some (domainPercent ⟨"CBC_ADAAG", 10, 10⟩) := rfl
      have e2 : lookupDomainScore examC1.domains "HOUSING" =
          some (domainPercent ⟨"HOUSING", 5, 0⟩) := rfl
      have e3 : lookupDomainScore examC1.domains "FEDERAL_REGS" = none := rfl
      have e4 : lookupDomainScore examC1.domains "CASP_RESPONSIBILITY" = none := rfl
      have e5 : lookupDomainScore examC1.domains "APPLICABLE_STANDARDS" = none := rfl
      simp only [compositeSums, CLOSED_BOOK_WEIGHTS, List.foldl, e1, e2, e3, e4, e5]
      norm_num)

/-- C9: the single-attempt scorer returns N/A (`none`) whenever
`total_questions ≤ 0`, and whenever the attempt's mode is not test-prep,
regardless of domain data. -/
theorem C9_na_guards :
    (∀ (exam : ExamAttempt) (alpha : ℚ), exam.total_questions ≤ 0 →
       compute_psychometric_score_for_exam exam alpha = none) ∧
    (∀ (exam : ExamAttempt) (alpha : ℚ), exam.mode ≠ ExamMode.test_prep →
       compute_psychometric_score_for_exam exam alpha = none) := by
  constructor
  · intro exam alpha h
    rw [compute_psychometric_score_for_exam]
    by_cases hm : exam.mode ≠ ExamMode.test_prep
    · rw [if_pos hm]
    · rw [if_neg hm, if_pos h]
  · intro exam alpha h
    rw [compute_psychometric_score_for_exam]
    rw [if_pos h]

def attTotalZero : ExamAttempt := ⟨1, ExamType.open_book, ExamMode.test_prep, 0, 0, 0, []⟩

def attOfficial : ExamAttempt :=
  ⟨2, ExamType.open_book, ExamMode.official_like, 0, 10, 7, [⟨"G_ROUTES", 10, 7⟩]⟩

theorem C9_witness :
    compute_psychometric_score_for_exam attTotalZero = none ∧
    compute_psychometric_score_for_exam attOfficial = none :=
  ⟨C9_na_guards.1 attTotalZero (2/5) (by decide),
   C9_na_guards.2 attOfficial (2/5) (by decide)⟩

/-- C10: attempts of exam type `mixed` always score N/A (`none`) even in
test-prep mode with positive totals and domain data (there is no weight
table for `mixed`), and longitudinal proficiency for `mixed` is always N/A. -/
theorem C10_mixed_na :
    (∀ (exam : ExamAttempt) (alpha : ℚ), exam.exam_type = ExamType.mixed →
       compute_psychometric_score_for_exam exam alpha = none) ∧
    (∀ (attempts : List ExamAttempt) (alpha : ℚ),
       compute_psychometric_proficiency_for_type attempts ExamType.mixed alpha = none) := by
  constructor
  · exact fun exam alpha h => score_none_of_mixed exam alpha h
  · intro attempts alpha
    simp only [compute_psychometric_proficiency_for_type]
    by_cases hf : (attempts.filter
        (fun a => decide (a.exam_type = ExamType.mixed) && decide (a.mode = ExamMode.test_prep))).isEmpty = true
    · rw [if_pos hf]
    · rw [if_neg hf]
      have hs : (takeLast 3 (sortByTakenAt (attempts.filter
            (fun a => decide (a.exam_type = ExamType.mixed) && decide (a.mode = ExamMode.test_prep))))).filterMap
          (fun exam => compute_psychometric_score_for_exam exam alpha) = [] := by
        rw [List.filterMap_eq_nil_iff]
        intro a ha
        have hmem := mem_of_mem_sortByTakenAt (mem_of_mem_takeLast ha)
        have hp := (List.mem_filter.1 hmem).2
        rw [Bool.and_eq_true] at hp
        have hmx : a.exam_type = ExamType.mixed := of_decide_eq_true hp.1
        exact score_none_of_mixed a alpha hmx
      rw [hs]
      rfl

/-- A mixed test-prep attempt with positive totals and domain data. -/
def attMixedFull : ExamAttempt :=
  ⟨1, ExamType.mixed, ExamMode.test_prep, 1, 10, 9, [⟨"cbc_scoping", 10, 9⟩]⟩

theorem C10_witness :
    compute_psychometric_score_for_exam attMixedFull = none ∧
    compute_psychometric_proficiency_for_type [attMixedFull] ExamType.mixed = none :=
  ⟨C10_mixed_na.1 attMixedFull (2/5) rfl,
   C10_mixed_na.2 [attMixedFull] (2/5)⟩

/-- A test-prep closed-book attempt scoring 80 (taken first). -/
def attEighty : ExamAttempt := ⟨1, ExamType.closed_book, ExamMode.test_prep, 1, 5, 4, []⟩

/-- A test-prep closed-book attempt scoring 60 (taken second). -/
def attSixty : ExamAttempt := ⟨2, ExamType.closed_book, ExamMode.test_prep, 2, 5, 3, []⟩

lemma score_attEighty : compute_psychometric_score_for_exam attEighty (2/5) = some 80 := by
  rw [compute_psychometric_score_for_exam]
  norm_num [attEighty, compute_raw_percent, get_weights_for_exam_type, hasDomainScores,
    clamp01, List.any]

lemma score_attSixty : compute_psychometric_score_for_exam attSixty (2/5) = some 60 := by
  rw [compute_psychometric_score_for_exam]
  norm_num [attSixty, compute_raw_percent, get_weights_for_exam_type, hasDomainScores,
    clamp01, List.any]

/-- C2: longitudinal proficiency filters to test-prep attempts of the exam
type, sorts ascending by `taken_at`, keeps the last 3, and weights them by
the right-aligned suffix of `[0.2, 0.3, 0.5]` renormalized to sum 1
(1 → `[1]`, 2 → `[3/8, 5/8]`, 3 → as-is); for two attempts scoring 80 then
60 the proficiency is 0.375·80 + 0.625·60 = 67.5. -/
theorem C2_longitudinal_proficiency :
    (∀ (attempts : List ExamAttempt) (et : ExamType) (alpha : ℚ) (recent : List ExamAttempt),
        recent = takeLast 3 (sortByTakenAt (attempts.filter
          (fun a => decide (a.exam_type = et) && decide (a.mode = ExamMode.test_prep)))) →
        attempts.filter (fun a => decide (a.exam_type = et) && decide (a.mode = ExamMode.test_prep)) ≠ [] →
        (∀ a ∈ recent, compute_psychometric_score_for_exam a alpha ≠ none) →
        compute_psychometric_proficiency_for_type attempts et alpha =
          some (clamp01 ((List.zipWith (fun w s => w * s)
              (normalizeWeights (takeLast recent.length base_weights) recent.length)
              (recent.filterMap (fun a => compute_psychometric_score_for_exam a alpha))).foldl (· + ·) 0))) ∧
    normalizeWeights (takeLast 1 base_weights) 1 = [1] ∧
    normalizeWeights (takeLast 2 base_weights) 2 = [3/8, 5/8] ∧
    normalizeWeights (takeLast 3 base_weights) 3 = [1/5, 3/10, 1/2] ∧
    compute_psychometric_proficiency_for_type [attEighty, attSixty] ExamType.closed_book
      = some (135/2) := by
  refine ⟨?_, ?_, ?_, ?_, ?_⟩
  · intro attempts et alpha recent hrec hne hsc
    simp only [compute_psychometric_proficiency_for_type]
    rw [if_neg (by simp [List.isEmpty_iff, hne])]
    rw [← hrec]
    have hlen : (recent.filterMap
        (fun exam => compute_psychometric_score_for_exam exam alpha)).length = recent.length :=
      length_filterMap_of_ne_none _ recent hsc
    have hrecne : recent.length ≠ 0 := by
      rw [hrec, length_takeLast, length_sortByTakenAt]
      have := List.length_pos.2 hne
      omega
    have hrec3 : recent.length ≤ 3 := by
      rw [hrec, length_takeLast]
      omega
    have hscne : (recent.filterMap
        (fun exam => compute_psychometric_score_for_exam exam alpha)) ≠ [] := by
      intro hnil
      rw [hnil] at hlen
      exact hrecne hlen.symm
    rw [if_neg (by simp [List.isEmpty_iff, hscne])]
    have hwlen : (normalizeWeights (takeLast recent.length base_weights) recent.length).length
        = recent.length := by
      rw [normalizeWeights]
      by_cases hpos : 0 < (takeLast recent.length base_weights).foldl (· + ·) 0
      · rw [if_pos hpos, List.length_map, length_takeLast]
        have : base_weights.length = 3 := rfl
        omega
      · rw [if_neg hpos, List.length_replicate]
    rw [if_neg (by rw [hlen, hwlen]; exact lt_irrefl _)]
  · have h : takeLast 1 base_weights = [5/10] := rfl
    rw [h]
    norm_num [normalizeWeights, List.foldl, List.map]
  · have h : takeLast 2 base_weights = [3/10, 5/10] := rfl
    rw [h]
    norm_num [normalizeWeights, List.foldl, List.map]
  · have h : takeLast 3 base_weights = [2/10, 3/10, 5/10] := rfl
    rw [h]
    norm_num [normalizeWeights, List.foldl, List.map]
  · have hr : takeLast 3 (sortByTakenAt ([attEighty, attSixty].filter
        (fun a => decide (a.exam_type = ExamType.closed_book) && decide (a.mode = ExamMode.test_prep))))
        = [attEighty, attSixty] := rfl
    have hw2 : normalizeWeights (takeLast 2 base_weights) 2 = [3/8, 5/8] := by
      have h : takeLast 2 base_weights = [3/10, 5/10] := rfl
      rw [h]
      norm_num [normalizeWeights, List.foldl, List.map]
    simp only [compute_psychometric_proficiency_for_type]
    rw [if_neg (by decide)]
    rw [hr]
    simp only [List.filterMap_cons, score_attEighty, score_attSixty, List.filterMap_nil]
    rw [if_neg (by decide)]
    have hlen2 : ([attEighty, attSixty] : List ExamAttempt).length = 2 := rfl
    rw [hlen2, hw2]
    rw [if_neg (by norm_num)]
    simp only [List.zipWith, List.foldl]
    norm_num [clamp01]

theorem C2_witness :
    compute_psychometric_proficiency_for_type [attEighty, attSixty] ExamType.closed_book (2/5) =
      some (clamp01 ((List.zipWith (fun w s => w * s)
          (normalizeWeights (takeLast ([attEighty, attSixty] : List ExamAttempt).length base_weights)
            ([attEighty, attSixty] : List ExamAttempt).length)
          (([attEighty, attSixty] : List ExamAttempt).filterMap
            (fun a => compute_psychometric_score_for_exam a (2/5)))).foldl (· + ·) 0)) :=
  C2_longitudinal_proficiency.1 [attEighty, attSixty] ExamType.closed_book (2/5)
    [attEighty, attSixty] rfl (by decide)
    (by
      intro a ha
      rcases List.mem_cons.1 ha with h | h
      · rw [h, score_attEighty]
        exact Option.some_ne_none _
      · rcases List.mem_cons.1 h with h2 | h2
        · rw [h2, score_attSixty]
          exact Option.some_ne_none _
        · exact absurd h2 (List.not_mem_nil a))

/-! ## Exam composition (main.py) -/

/-- `clamp` from main.py. -/
def clamp (n minimum maximum : Int) : Int :=
  if n < minimum then minimum
  else if n > maximum then maximum
  else n

/-- Python `round(total_count * 0.4)`. The float product lies within one
ulp of the exact value `2n/5`, whose fractional part is a multiple of 1/5
and therefore never exactly 1/2, so banker's rounding of the float agrees
with rounding `2n/5` to the nearest integer, i.e. `⌊(4n + 5) / 10⌋`. -/
def round04 (n : Int) : Int := (4 * n + 5).ediv 10

/-- The quota-split portion of `build_mixed_exam`. The two sequential
force-to-one fixups of the Python code are written as a nested
conditional, which is equivalent because under `2 ≤ total_count` the
first fixup leaves `closed_count = total_count - 1 ≠ 0`. -/
def mixedShares (total_count : Int) : Int × Int :=
  let oc := round04 total_count
  let cc := total_count - oc
  if 2 ≤ total_count then
    if oc = 0 then (1, total_count - 1)
    else if cc = 0 then (total_count - 1, 1)
    else (oc, cc)
  else (oc, cc)

inductive ApiError where
  | http (status : Nat) (detail : String)
deriving DecidableEq

/-- The response-model question record (`ExamQuestion` in main.py). -/
structure ApiExamQuestion where
  id : Int
  text : String
  correct_answer : String
  qtype : Option String
  difficulty : Option String
  reference_document : Option String
  reference_section : Option String
deriving DecidableEq

/-- `_map_question` from main.py (enum values are already strings here). -/
def map_question (q : DBQuestion) : ApiExamQuestion :=
  ⟨q.id, q.text, q.correct_answer, q.qtype, q.difficulty,
   q.reference_document, q.reference_section⟩

/-- `db.query(Question).filter(Question.qtype == "open")`. -/
def base_open (db : List DBQuestion) : List DBQuestion :=
  db.filter (fun q => decide (q.qtype = some "open"))

/-- `db.query(Question).filter(Question.qtype == "closed")`. -/
def base_closed (db : List DBQuestion) : List DBQuestion :=
  db.filter (fun q => decide (q.qtype = some "closed"))

/-- Restriction by difficulty when one is given. -/
def filterDifficulty (pool : List DBQuestion) (difficulty : Option String) :
    List DBQuestion :=
  match difficulty with
  | none => pool
  | some d => pool.filter (fun q => decide (q.difficulty = some d))

/-- `limit(n).all()`: the first `n` rows of the ordered result. Non-positive
limits are modelled as returning no rows (negative SQL limits are
dialect-specific and never produced by the claims under study). -/
def limitTake (n : Int) (pool : List DBQuestion) : List DBQuestion :=
  pool.take n.toNat

/-- `build_mixed_exam` from main.py. -/
def build_mixed_exam (db : List DBQuestion) (total_count : Int)
    (difficulty : Option String) : Except ApiError (Int × List ApiExamQuestion) :=
  let oc := (mixedShares total_count).1
  let cc := (mixedShares total_count).2
  let open_sel := limitTake oc (filterDifficulty (base_open db) difficulty)
  let closed_sel := limitTake cc (filterDifficulty (base_closed db) difficulty)
  let pair :=
    if open_sel = [] ∧ closed_sel = [] ∧ difficulty ≠ none then
      (limitTake oc (base_open db), limitTake cc (base_closed db))
    else (open_sel, closed_sel)
  let questions := pair.1 ++ pair.2
  if questions.length = 0 then
    Except.error (ApiError.http 400 "No questions available for requested difficulty/mode mix")
  else
    Except.ok (questions.length, questions.map map_question)

/-- An entry of `closed_book_questions.json` as read by
`build_closed_test_prep_exam`. -/
structure ClosedBankQuestion where
  id : Int
  text : String
  correctchoice : String
  difficulty : Option String
  reference : Option String
deriving DecidableEq

/-- `build_closed_test_prep_exam` from main.py. The JSON bank is `none`
when the file is missing; `random.shuffle` is injected as a function
argument (the repository's design notes call for an injected seedable
random source). -/
def build_closed_test_prep_exam (bank : Option (List ClosedBankQuestion))
    (shuffle : List ClosedBankQuestion → List ClosedBankQuestion) (count : Int) :
    Except ApiError (Int × List ApiExamQuestion) :=
  match bank with
  | none => Except.error (ApiError.http 500 "Closed-book question bank not found")
  | some data =>
    let pool := data.filter (fun q => decide (q.difficulty = some "test_prep"))
    if pool = [] then
      Except.error (ApiError.http 400 "No closed-book test prep questions available in JSON bank")
    else
      let selected := (shuffle pool).take count.toNat
      Except.ok (selected.length, selected.map
        (fun q => ⟨q.id, q.text, q.correctchoice, some "closed", q.difficulty, q.reference, none⟩))

/-- The `/exam` route handler `create_exam` from main.py (identity
verification is upstream of this logic and out of scope). Returns the
response `(mode, effective count, questions)`. -/
def create_exam (mode : String) (count : Int) (difficulty : Option String)
    (db : List DBQuestion) (closed_bank : Option (List ClosedBankQuestion))
    (shuffle : List ClosedBankQuestion → List ClosedBankQuestion) :
    Except ApiError (String × Int × List ApiExamQuestion) :=
  if mode = "mixed" then
    match build_mixed_exam db count difficulty with
    | Except.error e => Except.error e
    | Except.ok (n, qs) => Except.ok ("mixed", n, qs)
  else
    let maxq : Int := if mode = "open" then 40 else 60
    let clamped_count := clamp count 1 maxq
    if mode = "closed" ∧ difficulty = some "test_prep" then
      match build_closed_test_prep_exam closed_bank shuffle clamped_count with
      | Except.error e => Except.error e
      | Except.ok (n, qs) => Except.ok ("closed", n, qs)
    else
      let base_query :=
        if mode = "closed" then db.filter (fun q => decide (q.qtype = some "closed"))
        else if mode = "open" then db.filter (fun q => decide (q.qtype = some "open"))
        else db
      let questions0 := limitTake clamped_count (filterDifficulty base_query difficulty)
      let questions :=
        if questions0 = [] ∧ difficulty ≠ none then limitTake clamped_count base_query
        else questions0
      if questions = [] then Except.error (ApiError.http 400 "No questions available")
      else
        let result := questions.map map_question
        Except.ok (mode, min clamped_count (result.length : Int), result)

/-! ## Question bank generator (generate_open_book_questions.py) -/

/-- Python `str.strip()` (whitespace at both ends), on the character list. -/
def trimChars (cs : List Char) : List Char :=
  ((cs.dropWhile Char.isWhitespace).reverse.dropWhile Char.isWhitespace).reverse

/-- Python `str.strip()`. -/
def pyStrip (s : String) : String := String.mk (trimChars s.toList)

/-- Python `str.lower()` (character-wise). -/
def pyLower (s : String) : String := String.mk (s.toList.map Char.toLower)

/-- Whether `needle` occurs as a contiguous substring of `hay`
(Python's `needle in hay`). -/
def isSubstrOf (needle : List Char) : List Char → Bool
  | [] => needle.isEmpty
  | c :: rest => needle.isPrefixOf (c :: rest) || isSubstrOf needle rest

/-- Python `a in b` on strings. -/
def pyIn (a b : String) : Bool := isSubstrOf a.toList b.toList

/-- `VALID_DIFFICULTIES` from generate_open_book_questions.py. -/
def VALID_DIFFICULTIES : List String := ["easy", "medium", "hard", "test_prep"]

/-- A question record of the authored/generated JSON banks, restricted to
the fields the id/stem bookkeeping reads (`id`, `text`, `stem`). -/
structure BankQ where
  id : String
  text : Option String
  stem : Option String
deriving DecidableEq

/-- `collect_existing_ids`: stringified, stripped, non-empty ids of both
banks (the Python set is modelled as the collection list; only membership
and maxima are consumed). -/
def collect_existing_ids (authored generated : List BankQ) : List String :=
  ((authored ++ generated).map (fun q => pyStrip q.id)).filter (fun s => decide (s ≠ ""))

/-- `q.get("text") or q.get("stem")` with the `isinstance(…, str)` guard:
an empty `text` falls back to `stem`; a missing result is dropped. -/
def stemOf (q : BankQ) : Option String :=
  match q.text with
  | some t => if t = "" then q.stem else some t
  | none => q.stem

/-- `collect_all_stems` over the authored then generated banks. -/
def collect_all_stems (authored generated : List BankQ) : List String :=
  (authored ++ generated).filterMap stemOf

/-- `is_too_similar` from generate_open_book_questions.py. -/
def is_too_similar (stem : String) (existing_stems : List String) : Bool :=
  let new := pyLower (pyStrip stem)
  if new = "" then false
  else existing_stems.any (fun s =>
    let old := pyLower (pyStrip s)
    if old = "" then false
    else if new = old then true
    else decide (40 ≤ new.length) && (pyIn new old || pyIn old new))

/-- The id prefix for an exam type (`gen-ob-` / `gen-cb-`). -/
def genPrefixFor (exam_type : String) : String :=
  if exam_type = "open_book" then "gen-ob-" else "gen-cb-"

/-- One decimal digit character. -/
def digitChar (d : Nat) : Char :=
  if d = 0 then '0' else if d = 1 then '1' else if d = 2 then '2'
  else if d = 3 then '3' else if d = 4 then '4' else if d = 5 then '5'
  else if d = 6 then '6' else if d = 7 then '7' else if d = 8 then '8' else '9'

/-- Decimal digits of `n`, most significant first, via structural fuel
(`fuel > n` suffices; see `natReprAux_val`). -/
def natReprAux : Nat → Nat → List Char
  | 0, _ => []
  | fuel + 1, n =>
    if n < 10 then [digitChar n]
    else natReprAux fuel (n / 10) ++ [digitChar (n % 10)]

/-- Python `str(n)` for a natural number. -/
def natRepr (n : Nat) : List Char := natReprAux (n + 1) n

/-- Python `f-string` zero-padding to width 6 (`f"{n:06d}"`). -/
def pad6 (n : Nat) : List Char :=
  List.replicate (6 - (natRepr n).length) '0' ++ natRepr n

/-- Numeric value of a decimal digit string (Python `int(tail)` for a
string of digits). -/
def natOfDigits (cs : List Char) : Nat :=
  cs.foldl (fun a c => a * 10 + (c.toNat - 48)) 0

/-- The `max_n` scan of `next_generated_id`: the largest numeric suffix of
an existing id carrying the given prefix. -/
def maxSuffix (existing_ids : List String) (p : String) : Nat :=
  existing_ids.foldl
    (fun m qid =>
      if p.toList.isPrefixOf qid.toList then
        let tail := qid.toList.drop p.toList.length
        if tail ≠ [] ∧ tail.all Char.isDigit then max m (natOfDigits tail) else m
      else m)
    0

/-- The collision-probe loop of `next_generated_id`. The Python `while`
is modelled with explicit fuel; `existing_ids.length + 1` probes always
suffice (in fact the first candidate is always fresh, see
`next_generated_id_eq`). -/
def probeId (existing_ids : List String) (p : String) : Nat → Nat → String
  | 0, n => String.mk (p.toList ++ pad6 n)
  | fuel + 1, n =>
    let new_id := String.mk (p.toList ++ pad6 n)
    if new_id ∈ existing_ids then probeId existing_ids p fuel (n + 1) else new_id

/-- `next_generated_id` from generate_open_book_questions.py. -/
def next_generated_id (existing_ids : List String) (exam_type : String) : String :=
  let p := genPrefixFor exam_type
  probeId existing_ids p (existing_ids.length + 1) (maxSuffix existing_ids p + 1)

/-- The candidate produced by the content-generation collaborator
(`call_model_to_generate_question` output, validated only for
near-duplication). -/
structure Candidate where
  stem : String
  option_a : String
  option_b : String
  option_c : String
  option_d : String
  correct_option : String
  explanation : String
deriving DecidableEq

/-- One loop iteration's injected randomness and collaborator output: the
uniformly drawn category definition and the model candidate (the design
notes require the random source to be injected through the signature). -/
structure Draw where
  cat_code : String
  cat_label : String
  output : Candidate
deriving DecidableEq

/-- The question record appended to the pool and the batch (the
`created_at_utc` wall-clock field is outside the model). -/
structure QuestionRecord where
  id : String
  exam_type : String
  topic : String
  cbc_category : String
  cbc_category_label : String
  difficulty : String
  text : String
  stem : String
  option_a : String
  option_b : String
  option_c : String
  option_d : String
  correct_option : String
  explanation : String
deriving DecidableEq

/-- The loop state of `generate_questions_for_run`. The in-memory
`generated_bank` receives exactly the records appended to
`new_questions`, so the bank is represented as its loaded part (fixed)
plus `new_questions`. -/
structure GenState where
  existing_ids : List String
  existing_stems : List String
  new_questions : List QuestionRecord
deriving DecidableEq

/-- One iteration of the generation loop: skip the candidate when its stem
is near-duplicate, otherwise assign an id and append. -/
def genStep (exam_type difficulty topic : String) (st : GenState) (d : Draw) : GenState :=
  let stem := d.output.stem
  if is_too_similar stem st.existing_stems then st
  else
    let qid := next_generated_id st.existing_ids exam_type
    let q : QuestionRecord :=
      ⟨qid, exam_type, topic, d.cat_code, d.cat_label, difficulty, stem, stem,
       d.output.option_a, d.output.option_b, d.output.option_c, d.output.option_d,
       d.output.correct_option, d.output.explanation⟩
    ⟨st.existing_ids ++ [qid], st.existing_stems ++ [stem], st.new_questions ++ [q]⟩

/-- The generation loop over the iteration draws. -/
def genLoop (exam_type difficulty topic : String) : GenState → List Draw → GenState
  | st, [] => st
  | st, d :: rest => genLoop exam_type difficulty topic (genStep exam_type difficulty topic st d) rest

inductive GenError where
  | fileNotFound (msg : String)
  | valueError (msg : String)
deriving DecidableEq

/-- Result of a generation run: the batch, and whether the pool was
persisted and an archive written (both skipped for an empty batch). -/
structure RunResult where
  new_questions : List QuestionRecord
  bank_saved : Bool
  archive_written : Bool
deriving DecidableEq

/-- `generate_questions_for_run` from generate_open_book_questions.py.
The per-iteration category draws and collaborator outputs are injected
as `draws` (one consumed per iteration). -/
def generate_questions_for_run (authored generated : List BankQ)
    (exam_type difficulty topic : String) (num_questions : Int)
    (draws : List Draw) : Except GenError RunResult :=
  if authored = [] then
    Except.error (GenError.fileNotFound "No authored open-book bank found")
  else
    let d := pyLower (pyStrip difficulty)
    if d ∉ VALID_DIFFICULTIES then
      Except.error (GenError.valueError "Invalid difficulty")
    else
      let num := if exam_type = "open_book" ∧ 40 < num_questions then 40 else num_questions
      if num ≤ 0 then Except.error (GenError.valueError "num_questions must be > 0")
      else
        let st0 : GenState :=
          ⟨collect_existing_ids authored generated, collect_all_stems authored generated, []⟩
        let stF := genLoop exam_type d topic st0 (draws.take num.toNat)
        Except.ok ⟨stF.new_questions, !stF.new_questions.isEmpty, !stF.new_questions.isEmpty⟩

/-! ## Difficulty tagger (auto_tag_difficulty.py) -/

/-- `SCENARIO_KEYWORDS` from auto_tag_difficulty.py. -/
def SCENARIO_KEYWORDS : List String :=
  ["clinic", "spinal", "rehabilitation", "doctor", "patient", "waiting room",
   "exam room", "suite", "tenant space", "tenant improvement", "shell building",
   "multi-story", "multi-storey", "shopping center", "grocery", "restaurant",
   "parking facility", "parking structure", "parking garage", "apartment",
   "hotel", "motel", "lodging", "field office", "customer service center"]

/-- `EXAM_STYLE_MARKERS` from auto_tag_difficulty.py. -/
def EXAM_STYLE_MARKERS : List String :=
  ["most appropriate", "best describes", "best meets", "which of the following",
   "based on the information above", "based on this scenario",
   "you are reviewing plans", "you are inspecting", "plan review",
   "project type", "new spinal care clinic", "new title ii field office"]

/-- The packet-style markers of `is_test_prep_candidate`. -/
def packet_markers : List String :=
  ["detail set", "enlarged plan", "exam-style", "test prep", "packet"]

/-- `has_list_structure` from auto_tag_difficulty.py. -/
def has_list_structure (text : String) : Bool :=
  if text = "" then false
  else ["\n- ", "\n* ", "\n1. ", "\n2. ", "\n3. ", " A.", " B.", " C."].any
    (fun m => pyIn m text)

/-- `is_scenario` from auto_tag_difficulty.py. -/
def is_scenario (text : String) : Bool :=
  if text = "" then false
  else SCENARIO_KEYWORDS.any (fun k => pyIn k (pyLower text))

/-- `is_exam_style` from auto_tag_difficulty.py. -/
def is_exam_style (text : String) : Bool :=
  if text = "" then false
  else EXAM_STYLE_MARKERS.any (fun k => pyIn k (pyLower text))

/-- `estimate_difficulty` from auto_tag_difficulty.py. The regex-based
reference counter `count_code_refs` is a pure collaborator shared with
`is_test_prep_candidate`; it is injected as the parameter `refs` and
applied, as in the source, to the stripped text. -/
def estimate_difficulty (refs : String → Nat) (text : String) : String :=
  if text = "" then "medium"
  else
    let t := pyStrip text
    let r := refs t
    let listy := has_list_structure t
    let scenario := is_scenario t
    let examy := is_exam_style t
    if decide (350 < t.length) || decide (4 ≤ r) || (scenario && examy)
        || (scenario && decide (2 ≤ r)) then "hard"
    else if decide (t.length < 140) && decide (r ≤ 1) && !scenario && !listy then "easy"
    else if (decide (260 < t.length) && (scenario || decide (2 ≤ r)))
        || (listy && (scenario || decide (2 ≤ r))) then "hard"
    else "medium"

/-- `is_test_prep_candidate` from auto_tag_difficulty.py, with the same
injected reference counter. -/
def is_test_prep_candidate (refs : String → Nat) (text : String)
    (base_difficulty : String) : Bool :=
  if text = "" ∨ base_difficulty ≠ "hard" then false
  else
    let t := pyStrip text
    let lower := pyLower t
    let r := refs t
    let scenario := is_scenario t
    let examy := is_exam_style t
    let long_enough := decide (260 < t.length)
    let very_long := decide (340 < t.length)
    let has_packet_markers := packet_markers.any (fun k => pyIn k lower)
    has_packet_markers
      || (very_long && scenario && decide (2 ≤ r))
      || (long_enough && scenario && examy && decide (2 ≤ r))
      || (scenario && examy && decide (3 ≤ r))

/-- The tagging combination in `main` of auto_tag_difficulty.py: estimate,
then upgrade to `test_prep` when the item qualifies. -/
def tag_difficulty (refs : String → Nat) (text : String) : String :=
  let difficulty := estimate_difficulty refs text
  if is_test_prep_candidate refs text difficulty then "test_prep" else difficulty

/-! ## Theorems about exam composition -/

lemma round04_bounds {n : Int} (h : 2 ≤ n) : 1 ≤ round04 n ∧ round04 n ≤ n - 1 := by
  have h1 : 10 * ((4 * n + 5).ediv 10) + (4 * n + 5).emod 10 = 4 * n + 5 :=
    Int.ediv_add_emod _ _
  have h2 : 0 ≤ (4 * n + 5).emod 10 := Int.emod_nonneg _ (by norm_num)
  have h3 : (4 * n + 5).emod 10 < 10 := Int.emod_lt_of_pos _ (by norm_num)
  rw [round04]
  omega

/-- C3: for every mixed-mode total `n ≥ 2`, the open share equals the
rounded 40% quota (the force-to-one fixups never fire there), both shares
are at least 1, and they sum to `n`. -/
theorem C3_mixed_quota_split :
    ∀ n : Int, 2 ≤ n →
      (mixedShares n).1 = round04 n ∧
      1 ≤ (mixedShares n).1 ∧ 1 ≤ (mixedShares n).2 ∧
      (mixedShares n).1 + (mixedShares n).2 = n := by
  intro n h
  obtain ⟨hlo, hhi⟩ := round04_bounds h
  rw [mixedShares]
  rw [if_pos h]
  rw [if_neg (by omega : ¬ round04 n = 0)]
  rw [if_neg (by omega : ¬ n - round04 n = 0)]
  refine ⟨rfl, hlo, by omega, by omega⟩

theorem C3_witness :
    (mixedShares 10).1 = round04 10 ∧
    1 ≤ (mixedShares 10).1 ∧ 1 ≤ (mixedShares 10).2 ∧
    (mixedShares 10).1 + (mixedShares 10).2 = 10 :=
  C3_mixed_quota_split 10 (by norm_num)

lemma mixed_ok_branch_ne_nil {questions : List DBQuestion} {n : Int} {qs : List ApiExamQuestion}
    (h : (if questions.length = 0 then
            (Except.error (ApiError.http 400 "No questions available for requested difficulty/mode mix") :
              Except ApiError (Int × List ApiExamQuestion))
          else Except.ok (questions.length, questions.map map_question)) = Except.ok (n, qs)) :
    qs ≠ [] := by
  by_cases hl : questions.length = 0
  · rw [if_pos hl] at h
    simp at h
  · rw [if_neg hl] at h
    injection h with h2
    injection h2 with hn hqs
    rw [← hqs]
    intro hq
    exact hl (by rw [List.map_eq_nil_iff.1 hq]; rfl)

/-- C5: in mixed mode with a difficulty given, the unfiltered fallback is
taken iff both difficulty-filtered sub-pool selections are empty (one
non-empty selection means neither pool falls back), and a successful
result never carries an empty question list (emptiness after fallback is
an explicit failure). -/
theorem C5_mixed_fallback_all_or_nothing :
    (∀ (db : List DBQuestion) (total : Int) (d : String),
        (limitTake (mixedShares total).1 (filterDifficulty (base_open db) (some d)) ≠ [] ∨
         limitTake (mixedShares total).2 (filterDifficulty (base_closed db) (some d)) ≠ []) →
        build_mixed_exam db total (some d) =
          Except.ok (((limitTake (mixedShares total).1 (filterDifficulty (base_open db) (some d)) ++
              limitTake (mixedShares total).2 (filterDifficulty (base_closed db) (some d))).length : Int),
            (limitTake (mixedShares total).1 (filterDifficulty (base_open db) (some d)) ++
              limitTake (mixedShares total).2 (filterDifficulty (base_closed db) (some d))).map map_question)) ∧
    (∀ (db : List DBQuestion) (total : Int) (d : String),
        limitTake (mixedShares total).1 (filterDifficulty (base_open db) (some d)) = [] →
        limitTake (mixedShares total).2 (filterDifficulty (base_closed db) (some d)) = [] →
        build_mixed_exam db total (some d) =
          (if (limitTake (mixedShares total).1 (base_open db) ++
               limitTake (mixedShares total).2 (base_closed db)).length = 0 then
            Except.error (ApiError.http 400 "No questions available for requested difficulty/mode mix")
          else
            Except.ok (((limitTake (mixedShares total).1 (base_open db) ++
                limitTake (mixedShares total).2 (base_closed db)).length : Int),
              (limitTake (mixedShares total).1 (base_open db) ++
                limitTake (mixedShares total).2 (base_closed db)).map map_question))) ∧
    (∀ (db : List DBQuestion) (total : Int) (difficulty : Option String)
        (n : Int) (qs : List ApiExamQuestion),
        build_mixed_exam db total difficulty = Except.ok (n, qs) → qs ≠ []) := by

  refine ⟨?_, ?_, ?_⟩
  · intro db total d h
    have hcond : ¬ (limitTake (mixedShares total).1 (filterDifficulty (base_open db) (some d)) = [] ∧
        limitTake (mixedShares total).2 (filterDifficulty (base_closed db) (some d)) = [] ∧
        (some d : Option String) ≠ none) := by
      intro hc
      rcases h with h | h
      · exact h hc.1
      · exact h hc.2.1
    have hlen : ¬ ((limitTake (mixedShares total).1 (filterDifficulty (base_open db) (some d)) ++
        limitTake (mixedShares total).2 (filterDifficulty (base_closed db) (some d))).length = 0) := by
      intro hlen0
      rcases List.append_eq_nil.1 (List.length_eq_zero.1 hlen0) with ⟨ha, hb⟩
      rcases h with h | h
      · exact h ha
      · exact h hb
    simp only [build_mixed_exam]
    rw [if_neg hcond, if_neg hlen]
  · intro db total d h1 h2
    have hc : (limitTake (mixedShares total).1 (filterDifficulty (base_open db) (some d)) = [] ∧
        limitTake (mixedShares total).2 (filterDifficulty (base_closed db) (some d)) = [] ∧
        (some d : Option String) ≠ none) := ⟨h1, h2, by simp⟩
    simp only [build_mixed_exam]
    rw [if_pos hc]
  · intro db total difficulty n qs h
    simp only [build_mixed_exam] at h
    by_cases hc : (limitTake (mixedShares total).1 (filterDifficulty (base_open db) difficulty) = [] ∧
        limitTake (mixedShares total).2 (filterDifficulty (base_closed db) difficulty) = [] ∧
        difficulty ≠ none)
    · rw [if_pos hc] at h
      exact mixed_ok_branch_ne_nil h
    · rw [if_neg hc] at h
      exact mixed_ok_branch_ne_nil h

/-- A two-question store: one open and one closed item, both `easy`. -/
def dbMix : List DBQuestion :=
  [⟨1, "o1", "A", some "open", some "easy", none, none, none⟩,
   ⟨2, "c1", "B", some "closed", some "easy", none, none, none⟩]

theorem C5_witness :
    build_mixed_exam dbMix 10 (some "easy") =
      Except.ok (((limitTake (mixedShares 10).1 (filterDifficulty (base_open dbMix) (some "easy")) ++
          limitTake (mixedShares 10).2 (filterDifficulty (base_closed dbMix) (some "easy"))).length : Int),
        (limitTake (mixedShares 10).1 (filterDifficulty (base_open dbMix) (some "easy")) ++
          limitTake (mixedShares 10).2 (filterDifficulty (base_closed dbMix) (some "easy"))).map map_question) ∧
    build_mixed_exam dbMix 10 (some "hard") =
      (if (limitTake (mixedShares 10).1 (base_open dbMix) ++
           limitTake (mixedShares 10).2 (base_closed dbMix)).length = 0 then
        Except.error (ApiError.http 400 "No questions available for requested difficulty/mode mix")
      else
        Except.ok (((limitTake (mixedShares 10).1 (base_open dbMix) ++
            limitTake (mixedShares 10).2 (base_closed dbMix)).length : Int),
          (limitTake (mixedShares 10).1 (base_open dbMix) ++
            limitTake (mixedShares 10).2 (base_closed dbMix)).map map_question)) ∧
    ([⟨1, "o1", "A", some "open", some "easy", none, none⟩,
      ⟨2, "c1", "B", some "closed", some "easy", none, none⟩] : List ApiExamQuestion) ≠ [] :=
  ⟨C5_mixed_fallback_all_or_nothing.1 dbMix 10 "easy" (Or.inl (by decide)),
   C5_mixed_fallback_all_or_nothing.2.1 dbMix 10 "hard" (by decide) (by decide),
   C5_mixed_fallback_all_or_nothing.2.2 dbMix 10 (some "easy") 2
     [⟨1, "o1", "A", some "open", some "easy", none, none⟩,
      ⟨2, "c1", "B", some "closed", some "easy", none, none⟩] rfl⟩

/-- C4 counterexample: an exam-composition request in `open` mode with the
non-positive count 0 does not fail with a validation error; the count is
clamped up to 1 and a one-question exam is returned. -/
theorem C4_counterexample :
    create_exam "open" 0 none dbMix none id =
      Except.ok ("open", 1, [⟨1, "o1", "A", some "open", some "easy", none, none⟩]) := rfl

lemma clamp_nonpos_eq_one {count maxq : Int} (hc : count ≤ 0) (hm : 1 ≤ maxq) :
    clamp count 1 maxq = clamp 1 1 maxq := by
  rw [clamp, clamp]
  rw [if_pos (by omega : count < 1)]
  rw [if_neg (by omega : ¬ (1 : Int) < 1)]
  rw [if_neg (by omega : ¬ (1 : Int) > maxq)]

/-- C4 (amended): generation requests with a non-positive count fail with
the `num_questions must be > 0` ValueError before any mutation; but
exam-composition requests do not validate the count: open/closed modes
behave exactly as a request for 1 question, and a zero-count mixed
request fails with the availability error, not a validation error. -/
theorem C4_amended :
    (∀ (authored generated : List BankQ) (exam_type difficulty topic : String)
        (num_questions : Int) (draws : List Draw),
        authored ≠ [] →
        pyLower (pyStrip difficulty) ∈ VALID_DIFFICULTIES →
        num_questions ≤ 0 →
        generate_questions_for_run authored generated exam_type difficulty topic
            num_questions draws =
          Except.error (GenError.valueError "num_questions must be > 0")) ∧
    (∀ (mode : String) (count : Int) (difficulty : Option String) (db : List DBQuestion)
        (bank : Option (List ClosedBankQuestion))
        (shuffle : List ClosedBankQuestion → List ClosedBankQuestion),
        mode ≠ "mixed" →
        count ≤ 0 →
        create_exam mode count difficulty db bank shuffle =
          create_exam mode 1 difficulty db bank shuffle) ∧
    (∀ (difficulty : Option String) (db : List DBQuestion)
        (bank : Option (List ClosedBankQuestion))
        (shuffle : List ClosedBankQuestion → List ClosedBankQuestion),
        create_exam "mixed" 0 difficulty db bank shuffle =
          Except.error (ApiError.http 400 "No questions available for requested difficulty/mode mix")) := by
  refine ⟨?_, ?_, ?_⟩
  · intro authored generated exam_type difficulty topic num_questions draws ha hd hn
    rw [generate_questions_for_run]
    rw [if_neg ha]
    rw [if_neg (by simp [hd])]
    have hnum : (if exam_type = "open_book" ∧ 40 < num_questions then (40 : Int)
        else num_questions) = num_questions := by
      rw [if_neg]
      intro hc
      omega
    rw [hnum, if_pos hn]
  · intro mode count difficulty db bank shuffle hmix hc
    simp only [create_exam]
    rw [if_neg hmix, if_neg hmix]
    rw [clamp_nonpos_eq_one hc
      (by by_cases hm : mode = "open"
          · rw [if_pos hm]
            norm_num
          · rw [if_neg hm]
            norm_num)]
  · intro difficulty db bank shuffle
    rw [create_exam]
    rw [if_pos rfl]
    have hshares : mixedShares 0 = (0, 0) := rfl
    have hopen : limitTake (mixedShares 0).1 (filterDifficulty (base_open db) difficulty) = [] := by
      rw [hshares, limitTake]
      rfl
    have hclosed : limitTake (mixedShares 0).2 (filterDifficulty (base_closed db) difficulty) = [] := by
      rw [hshares, limitTake]
      rfl
    have hfopen : limitTake (mixedShares 0).1 (base_open db) = [] := by
      rw [hshares, limitTake]
      rfl
    have hfclosed : limitTake (mixedShares 0).2 (base_closed db) = [] := by
      rw [hshares, limitTake]
      rfl
    have hbuild : build_mixed_exam db 0 difficulty =
        Except.error (ApiError.http 400 "No questions available for requested difficulty/mode mix") := by
      simp only [build_mixed_exam]
      rw [hopen, hclosed, hfopen, hfclosed]
      by_cases hdn : difficulty ≠ none
      · have hcnd : (([] : List DBQuestion) = [] ∧ ([] : List DBQuestion) = [] ∧
            difficulty ≠ none) := ⟨rfl, rfl, hdn⟩
        rw [if_pos hcnd]
        rfl
      · have hcnd : ¬ (([] : List DBQuestion) = [] ∧ ([] : List DBQuestion) = [] ∧
            difficulty ≠ none) := fun h => hdn h.2.2
        rw [if_neg hcnd]
        rfl
    rw [hbuild]

def authoredOne : List BankQ := [⟨"a1", some "an authored stem", none⟩]

theorem C4_amended_witness :
    generate_questions_for_run authoredOne [] "open_book" "easy" "Parking" 0 [] =
      Except.error (GenError.valueError "num_questions must be > 0") ∧
    create_exam "open" (-5) none dbMix none id = create_exam "open" 1 none dbMix none id ∧
    create_exam "mixed" 0 (some "easy") dbMix none id =
      Except.error (ApiError.http 400 "No questions available for requested difficulty/mode mix") :=
  ⟨C4_amended.1 authoredOne [] "open_book" "easy" "Parking" 0 [] (by decide) (by decide) (by norm_num),
   C4_amended.2.1 "open" (-5) none dbMix none id (by decide) (by norm_num),
   C4_amended.2.2 (some "easy") dbMix none id⟩

lemma isSubstrOf_iff : ∀ {a b : List Char}, isSubstrOf a b = true ↔ a <:+: b := by
  intro a b
  induction b with
  | nil =>
    rw [isSubstrOf]
    rw [List.isEmpty_iff]
    exact ⟨fun h => by rw [h], fun h => List.infix_nil.1 h⟩
  | cons c rest ih =>
    rw [isSubstrOf, Bool.or_eq_true, List.isPrefixOf_iff_prefix, ih, List.infix_cons_iff]

lemma eq_empty_of_toList_eq_nil {s : String} (h : s.toList = []) : s = "" :=
  String.ext h

lemma string_length_toList (s : String) : s.toList.length = s.length := rfl

lemma is_too_similar_of_superstring {old cand : String} {stems : List String}
    (hmem : old ∈ stems)
    (hne : pyLower (pyStrip old) ≠ "")
    (hlen : 40 ≤ (pyLower (pyStrip old)).length)
    (hinf : (pyLower (pyStrip old)).toList <:+: (pyLower (pyStrip cand)).toList) :
    is_too_similar cand stems = true := by
  have hnew : pyLower (pyStrip cand) ≠ "" := by
    intro h0
    apply hne
    apply eq_empty_of_toList_eq_nil
    have h1 : (pyLower (pyStrip cand)).toList = [] := by rw [h0]; rfl
    rw [h1] at hinf
    exact List.infix_nil.1 hinf
  rw [is_too_similar]
  rw [if_neg hnew]
  apply List.any_eq_true.2
  refine ⟨old, hmem, ?_⟩
  show (if pyLower (pyStrip old) = "" then false
    else if pyLower (pyStrip cand) = pyLower (pyStrip old) then true
    else decide (40 ≤ (pyLower (pyStrip cand)).length) &&
      (pyIn (pyLower (pyStrip cand)) (pyLower (pyStrip old)) ||
       pyIn (pyLower (pyStrip old)) (pyLower (pyStrip cand)))) = true
  rw [if_neg hne]
  by_cases heq : pyLower (pyStrip cand) = pyLower (pyStrip old)
  · rw [if_pos heq]
  · rw [if_neg heq]
    have hlelen := hinf.length_le
    rw [string_length_toList, string_length_toList] at hlelen
    have h40 : decide (40 ≤ (pyLower (pyStrip cand)).length) = true :=
      decide_eq_true (by omega)
    have hsub : pyIn (pyLower (pyStrip old)) (pyLower (pyStrip cand)) = true := by
      rw [pyIn]
      exact isSubstrOf_iff.2 hinf
    rw [h40, hsub]
    simp

lemma genStep_skip {et diff topic : String} {st : GenState} {d : Draw}
    (h : is_too_similar d.output.stem st.existing_stems = true) :
    genStep et diff topic st d = st := by
  rw [genStep, if_pos h]

lemma mem_stems_genStep {old : String} {st : GenState} (et diff topic : String) (d : Draw)
    (h : old ∈ st.existing_stems) :
    old ∈ (genStep et diff topic st d).existing_stems := by
  rw [genStep]
  by_cases hs : is_too_similar d.output.stem st.existing_stems = true
  · rw [if_pos hs]
    exact h
  · rw [if_neg hs]
    exact List.mem_append_left _ h

lemma genLoop_filter_superstring {old : String} (et diff topic : String)
    (hne : pyLower (pyStrip old) ≠ "")
    (hlen : 40 ≤ (pyLower (pyStrip old)).length) :
    ∀ (draws : List Draw) (st : GenState), old ∈ st.existing_stems →
      genLoop et diff topic st (draws.filter
        (fun d => !(isSubstrOf (pyLower (pyStrip old)).toList
          (pyLower (pyStrip d.output.stem)).toList))) =
      genLoop et diff topic st draws := by
  intro draws
  induction draws with
  | nil => intro st _; rfl
  | cons d rest ih =>
    intro st hmem
    by_cases hsup : isSubstrOf (pyLower (pyStrip old)).toList
        (pyLower (pyStrip d.output.stem)).toList = true
    · rw [List.filter_cons_of_neg (by rw [hsup]; decide)]
      have hskip : genStep et diff topic st d = st :=
        genStep_skip (is_too_similar_of_superstring hmem hne hlen (isSubstrOf_iff.1 hsup))
      rw [genLoop, hskip]
      exact ih st hmem
    · rw [List.filter_cons_of_pos (by rw [Bool.not_eq_true] at hsup; rw [hsup]; rfl)]
      rw [genLoop, genLoop]
      exact ih (genStep et diff topic st d) (mem_stems_genStep et diff topic d hmem)

/-- C6: a candidate whose processed stem contains an existing processed
stem of at least 40 characters is judged near-duplicate by the similarity
check; the generation step then changes nothing (no id assigned, no pool
append, no batch entry), and a whole run behaves as if such candidates
were absent. -/
theorem C6_dedup_superstring :
    ∀ (st : GenState) (old : String) (et diff topic : String) (draws : List Draw),
      old ∈ st.existing_stems →
      pyLower (pyStrip old) ≠ "" →
      40 ≤ (pyLower (pyStrip old)).length →
      (∀ cand : String,
          (pyLower (pyStrip old)).toList <:+: (pyLower (pyStrip cand)).toList →
          is_too_similar cand st.existing_stems = true) ∧
      (∀ d : Draw,
          (pyLower (pyStrip old)).toList <:+: (pyLower (pyStrip d.output.stem)).toList →
          genStep et diff topic st d = st) ∧
      genLoop et diff topic st (draws.filter
        (fun d => !(isSubstrOf (pyLower (pyStrip old)).toList
          (pyLower (pyStrip d.output.stem)).toList))) =
        genLoop et diff topic st draws := by
  intro st old et diff topic draws hmem hne hlen
  refine ⟨?_, ?_, ?_⟩
  · intro cand hinf
    exact is_too_similar_of_superstring hmem hne hlen hinf
  · intro d hinf
    exact genStep_skip (is_too_similar_of_superstring hmem hne hlen hinf)
  · exact genLoop_filter_superstring et diff topic hne hlen draws st hmem

def oldStem : String :=
  "an existing question stem that is definitely longer than forty characters"

def superDraw : Draw :=
  ⟨"11B-4", "Div 2-4 Accessible Routes (G)",
   ⟨"an existing question stem that is definitely longer than forty characters with an extra clause appended",
    "Option A", "Option B", "Option C", "Option D", "B", "explanation"⟩⟩

def stSeed : GenState := ⟨["gen-ob-000001"], [oldStem], []⟩

theorem C6_witness :
    is_too_similar
      "an existing question stem that is definitely longer than forty characters with an extra clause appended"
      stSeed.existing_stems = true ∧
    genStep "open_book" "easy" "Parking" stSeed superDraw = stSeed ∧
    genLoop "open_book" "easy" "Parking" stSeed ([superDraw].filter
      (fun d => !(isSubstrOf (pyLower (pyStrip oldStem)).toList
        (pyLower (pyStrip d.output.stem)).toList))) =
      genLoop "open_book" "easy" "Parking" stSeed [superDraw] := by
  have h := C6_dedup_superstring stSeed oldStem "open_book" "easy" "Parking" [superDraw]
    (by decide) (by decide) (by decide)
  exact ⟨h.1 _ (isSubstrOf_iff.1 (by decide)), h.2.1 superDraw (isSubstrOf_iff.1 (by decide)), h.2.2⟩

lemma digitChar_isDigit (d : Nat) : (digitChar d).isDigit = true := by
  rw [digitChar]
  split_ifs <;> rfl

lemma digitChar_val {d : Nat} (h : d < 10) : (digitChar d).toNat - 48 = d := by
  interval_cases d <;> rfl

lemma natReprAux_spec :
    ∀ (fuel n : Nat), n < fuel →
      natReprAux fuel n ≠ [] ∧
      (natReprAux fuel n).all Char.isDigit = true ∧
      ∀ acc : Nat, (natReprAux fuel n).foldl (fun a c => a * 10 + (c.toNat - 48)) acc
        = acc * 10 ^ (natReprAux fuel n).length + n := by
  intro fuel
  induction fuel with
  | zero => intro n h; omega
  | succ fuel ih =>
    intro n h
    by_cases h10 : n < 10
    · simp only [natReprAux, if_pos h10]
      refine ⟨by simp, by simp [digitChar_isDigit], ?_⟩
      intro acc
      rw [List.foldl_cons, List.foldl_nil, List.length_cons, List.length_nil,
        pow_one, digitChar_val h10]
    · simp only [natReprAux, if_neg h10]
      have hm : n / 10 < fuel := by
        have hlt : n / 10 < n := Nat.div_lt_self (by omega) (by norm_num)
        omega
      obtain ⟨hne, hdig, hval⟩ := ih (n / 10) hm
      refine ⟨by simp, ?_, ?_⟩
      · rw [List.all_append, hdig]
        simp [digitChar_isDigit]
      · intro acc
        rw [List.foldl_append, hval acc, List.foldl_cons, List.foldl_nil,
          List.length_append, List.length_cons, List.length_nil,
          digitChar_val (Nat.mod_lt _ (by norm_num))]
        have key : (acc * 10 ^ (natReprAux fuel (n / 10)).length + n / 10) * 10 + n % 10
            = acc * (10 ^ (natReprAux fuel (n / 10)).length * 10) + (10 * (n / 10) + n % 10) := by
          ring
        rw [key, Nat.div_add_mod]
        rw [Nat.add_zero, pow_succ]

lemma natRepr_spec (n : Nat) :
    natRepr n ≠ [] ∧ (natRepr n).all Char.isDigit = true ∧ natOfDigits (natRepr n) = n := by
  obtain ⟨h1, h2, h3⟩ := natReprAux_spec (n + 1) n (by omega)
  refine ⟨h1, h2, ?_⟩
  rw [natRepr, natOfDigits, h3 0]
  simp

lemma foldl_digit_zeros (k : Nat) :
    (List.replicate k '0').foldl (fun a c => a * 10 + (c.toNat - 48)) 0 = 0 := by
  induction k with
  | zero => rfl
  | succ k ih =>
    rw [List.replicate_succ, List.foldl_cons]
    simpa using ih

lemma pad6_spec (n : Nat) :
    pad6 n ≠ [] ∧ (pad6 n).all Char.isDigit = true ∧ natOfDigits (pad6 n) = n := by
  obtain ⟨h1, h2, h3⟩ := natRepr_spec n
  refine ⟨?_, ?_, ?_⟩
  · rw [pad6]
    intro hc
    exact h1 (List.append_eq_nil.1 hc).2
  · rw [pad6, List.all_append, h2]
    have hz : (List.replicate (6 - (natRepr n).length) '0').all Char.isDigit = true := by
      apply List.all_eq_true.2
      intro c hc
      rw [List.eq_of_mem_replicate hc]
      rfl
    rw [hz]
    rfl
  · rw [pad6, natOfDigits, List.foldl_append, foldl_digit_zeros]
    exact h3

lemma foldl_maxSuffix_init (p : String) :
    ∀ (l : List String) (init : Nat),
      init ≤ l.foldl (fun m qid =>
        if p.toList.isPrefixOf qid.toList then
          let tail := qid.toList.drop p.toList.length
          if tail ≠ [] ∧ tail.all Char.isDigit then max m (natOfDigits tail) else m
        else m) init := by
  intro l
  induction l with
  | nil => intro init; exact le_refl _
  | cons a rest ih =>
    intro init
    rw [List.foldl_cons]
    refine le_trans ?_ (ih _)
    by_cases hp : p.toList.isPrefixOf a.toList
    · rw [if_pos hp]
      by_cases hd : a.toList.drop p.toList.length ≠ [] ∧
          (a.toList.drop p.toList.length).all Char.isDigit
      · simp only [if_pos hd]
        exact le_max_left _ _
      · simp only [if_neg hd]
        exact le_refl _
    · rw [if_neg hp]

lemma foldl_maxSuffix_mem (p : String) :
    ∀ (l : List String) (init : Nat) (qid : String),
      qid ∈ l →
      p.toList.isPrefixOf qid.toList = true →
      qid.toList.drop p.toList.length ≠ [] →
      (qid.toList.drop p.toList.length).all Char.isDigit = true →
      natOfDigits (qid.toList.drop p.toList.length) ≤ l.foldl (fun m qid =>
        if p.toList.isPrefixOf qid.toList then
          let tail := qid.toList.drop p.toList.length
          if tail ≠ [] ∧ tail.all Char.isDigit then max m (natOfDigits tail) else m
        else m) init := by
  intro l
  induction l with
  | nil => intro init qid hmem; exact absurd hmem (List.not_mem_nil qid)
  | cons a rest ih =>
    intro init qid hmem hpre hne hdig
    rw [List.foldl_cons]
    rcases List.mem_cons.1 hmem with heq | hmem'
    · subst heq
      refine le_trans ?_ (foldl_maxSuffix_init p rest _)
      rw [if_pos hpre]
      have hcond : qid.toList.drop p.toList.length ≠ [] ∧
          (qid.toList.drop p.toList.length).all Char.isDigit = true := ⟨hne, hdig⟩
      simp only [if_pos hcond]
      exact le_max_right _ _
    · exact ih _ qid hmem' hpre hne hdig

lemma next_id_fresh (existing : List String) (p : String) :
    String.mk (p.toList ++ pad6 (maxSuffix existing p + 1)) ∉ existing := by
  intro hmem
  obtain ⟨hne, hdig, hval⟩ := pad6_spec (maxSuffix existing p + 1)
  have hpre : p.toList.isPrefixOf
      (String.mk (p.toList ++ pad6 (maxSuffix existing p + 1))).toList = true := by
    apply List.isPrefixOf_iff_prefix.2
    show p.toList <+: (p.toList ++ pad6 (maxSuffix existing p + 1))
    exact List.prefix_append _ _
  have hdrop : (String.mk (p.toList ++ pad6 (maxSuffix existing p + 1))).toList.drop
      p.toList.length = pad6 (maxSuffix existing p + 1) := by
    show (p.toList ++ pad6 (maxSuffix existing p + 1)).drop p.toList.length = _
    exact List.drop_left _ _
  have hle := foldl_maxSuffix_mem p existing 0 _ hmem hpre
    (by rw [hdrop]; exact hne) (by rw [hdrop]; exact hdig)
  rw [hdrop, hval] at hle
  have hle' : maxSuffix existing p + 1 ≤ maxSuffix existing p := by
    rw [maxSuffix]
    exact hle
  omega

lemma next_generated_id_eq (existing : List String) (et : String) :
    next_generated_id existing et =
      String.mk ((genPrefixFor et).toList ++
        pad6 (maxSuffix existing (genPrefixFor et) + 1)) := by
  rw [next_generated_id]
  simp only [probeId]
  rw [if_neg (next_id_fresh existing (genPrefixFor et))]

/-- C7: a freshly generated id starts with the exam type's prefix, is not
among the existing ids, and its numeric suffix strictly exceeds the
numeric suffix of every existing id with that prefix. -/
theorem C7_generated_ids :
    ∀ (existing_ids : List String) (exam_type : String),
      (genPrefixFor exam_type).toList.isPrefixOf
        (next_generated_id existing_ids exam_type).toList = true ∧
      next_generated_id existing_ids exam_type ∉ existing_ids ∧
      (∀ qid ∈ existing_ids, ∀ tail : List Char,
          qid.toList = (genPrefixFor exam_type).toList ++ tail →
          tail ≠ [] →
          tail.all Char.isDigit = true →
          natOfDigits tail <
            natOfDigits ((next_generated_id existing_ids exam_type).toList.drop
              (genPrefixFor exam_type).toList.length)) := by
  intro existing_ids exam_type
  rw [next_generated_id_eq]
  obtain ⟨hne, hdig, hval⟩ := pad6_spec (maxSuffix existing_ids (genPrefixFor exam_type) + 1)
  have hdrop : (String.mk ((genPrefixFor exam_type).toList ++
      pad6 (maxSuffix existing_ids (genPrefixFor exam_type) + 1))).toList.drop
      (genPrefixFor exam_type).toList.length =
      pad6 (maxSuffix existing_ids (genPrefixFor exam_type) + 1) := by
    show ((genPrefixFor exam_type).toList ++
      pad6 (maxSuffix existing_ids (genPrefixFor exam_type) + 1)).drop
      (genPrefixFor exam_type).toList.length = _
    exact List.drop_left _ _
  refine ⟨?_, ?_, ?_⟩
  · apply List.isPrefixOf_iff_prefix.2
    show (genPrefixFor exam_type).toList <+:
      ((genPrefixFor exam_type).toList ++ pad6 (maxSuffix existing_ids (genPrefixFor exam_type) + 1))
    exact List.prefix_append _ _
  · exact next_id_fresh existing_ids (genPrefixFor exam_type)
  · intro qid hmem tail heq htne htdig
    rw [hdrop, hval]
    have hpre : (genPrefixFor exam_type).toList.isPrefixOf qid.toList = true := by
      apply List.isPrefixOf_iff_prefix.2
      rw [heq]
      exact List.prefix_append _ _
    have htail : qid.toList.drop (genPrefixFor exam_type).toList.length = tail := by
      rw [heq]
      exact List.drop_left _ _
    have hle := foldl_maxSuffix_mem (genPrefixFor exam_type) existing_ids 0 qid hmem hpre
      (by rw [htail]; exact htne) (by rw [htail]; exact htdig)
    rw [htail] at hle
    have hle' : natOfDigits tail ≤ maxSuffix existing_ids (genPrefixFor exam_type) := by
      rw [maxSuffix]
      exact hle
    omega

theorem C7_witness :
    (genPrefixFor "open_book").toList.isPrefixOf
      (next_generated_id ["gen-ob-000007", "zz"] "open_book").toList = true ∧
    next_generated_id ["gen-ob-000007", "zz"] "open_book" ∉ ["gen-ob-000007", "zz"] ∧
    natOfDigits "000007".toList <
      natOfDigits ((next_generated_id ["gen-ob-000007", "zz"] "open_book").toList.drop
        (genPrefixFor "open_book").toList.length) := by
  have h := C7_generated_ids ["gen-ob-000007", "zz"] "open_book"
  exact ⟨h.1, h.2.1,
    h.2.2 "gen-ob-000007" (by decide) "000007".toList (by decide) (by decide) (by decide)⟩

lemma estimate_ne_test_prep (refs : String → Nat) (text : String) :
    estimate_difficulty refs text ≠ "test_prep" := by
  rw [estimate_difficulty]
  by_cases he : text = ""
  · rw [if_pos he]
    decide
  · rw [if_neg he]
    simp only []
    split_ifs <;> decide

lemma candidate_base_hard {refs : String → Nat} {text base : String}
    (h : is_test_prep_candidate refs text base = true) : base = "hard" ∧ text ≠ "" := by
  rw [is_test_prep_candidate] at h
  by_cases hc : text = "" ∨ base ≠ "hard"
  · rw [if_pos hc] at h
    exact absurd h (by decide)
  · push_neg at hc
    exact ⟨hc.2, hc.1⟩

lemma candidate_iff (refs : String → Nat) (text : String) (hne : text ≠ "") :
    is_test_prep_candidate refs text "hard" = true ↔
      (packet_markers.any (fun k => pyIn k (pyLower (pyStrip text))) = true ∨
       (340 < (pyStrip text).length ∧ is_scenario (pyStrip text) = true ∧
         2 ≤ refs (pyStrip text)) ∨
       (260 < (pyStrip text).length ∧ is_scenario (pyStrip text) = true ∧
         is_exam_style (pyStrip text) = true ∧ 2 ≤ refs (pyStrip text)) ∨
       (is_scenario (pyStrip text) = true ∧ is_exam_style (pyStrip text) = true ∧
         3 ≤ refs (pyStrip text))) := by
  rw [is_test_prep_candidate]
  rw [if_neg (by simp [hne])]
  simp only [Bool.or_eq_true, Bool.and_eq_true, decide_eq_true_eq]
  tauto

/-- C8: the combined tagger outputs `test_prep` exactly when the base
estimate is `hard` and at least one upgrade condition holds (packet-style
marker; or length > 340 with scenario and ≥ 2 references; or length > 260
with scenario, exam-style and ≥ 2 references; or scenario, exam-style and
≥ 3 references); the base estimator alone never outputs `test_prep`. -/
theorem C8_test_prep_upgrade_only :
    (∀ (refs : String → Nat) (text : String),
        tag_difficulty refs text = "test_prep" ↔
          (estimate_difficulty refs text = "hard" ∧
           (packet_markers.any (fun k => pyIn k (pyLower (pyStrip text))) = true ∨
            (340 < (pyStrip text).length ∧ is_scenario (pyStrip text) = true ∧
              2 ≤ refs (pyStrip text)) ∨
            (260 < (pyStrip text).length ∧ is_scenario (pyStrip text) = true ∧
              is_exam_style (pyStrip text) = true ∧ 2 ≤ refs (pyStrip text)) ∨
            (is_scenario (pyStrip text) = true ∧ is_exam_style (pyStrip text) = true ∧
              3 ≤ refs (pyStrip text))))) ∧
    (∀ (refs : String → Nat) (text : String),
        estimate_difficulty refs text ≠ "test_prep") := by
  constructor
  · intro refs text
    rw [tag_difficulty]
    by_cases hcand : is_test_prep_candidate refs text (estimate_difficulty refs text) = true
    · rw [if_pos hcand]
      obtain ⟨hbase, hne⟩ := candidate_base_hard hcand
      constructor
      · intro _
        refine ⟨hbase, ?_⟩
        exact (candidate_iff refs text hne).1 (hbase ▸ hcand)
      · intro _
        rfl
    · rw [if_neg hcand]
      constructor
      · intro he
        exact absurd he (estimate_ne_test_prep refs text)
      · rintro ⟨hbase, hdisj⟩
        exfalso
        apply hcand
        by_cases hne : text = ""
        · rw [estimate_difficulty, if_pos hne] at hbase
          exact absurd hbase (by decide)
        · rw [hbase]
          exact (candidate_iff refs text hne).2 hdisj
  · exact estimate_ne_test_prep
